import Mathlib

/-!
Verification development for the OpenRouter-CLI file-operation transaction
engine (`openrouter_cli/core/agent.py`) and tool registry/dispatcher
(`openrouter_cli/core/tools.py`).

The Python code is shallowly embedded as pure Lean functions:

* the on-disk filesystem and the backup directory are association lists
  from path strings to file contents;
* the mutable `AIAgent` object (its `operation_history`, the backup store,
  and the working filesystem) becomes an explicit `AgentState` threaded
  through every operation;
* `datetime.now()` is modelled by a `clock : Nat` counter in the state that
  advances once per mutating operation, so backup names derived from it are
  timestamps exactly as in the source;
* Python exceptions escaping a method are modelled as `Except.error` with
  the message the source builds (an `Except.error` value IS an escaped
  exception at the method boundary; a returned dictionary is the `ok`
  payload); state mutations performed before a raise survive it, so every
  stateful method returns `Except ... × AgentState`;
* environment nondeterminism (does `shutil.copy2` succeed? does the
  filesystem write during undo succeed?) is made explicit through the
  boolean parameters `copyOk` / `restoreOk`.
-/

/-- A filesystem (and likewise the backup directory): an association list
from path to textual content.  Earlier entries shadow later ones. -/
abbrev Fs := List (String × String)

/-- Content at `p`, if `p` exists (`Path.read_text`). -/
def fsGet (fs : Fs) (p : String) : Option String :=
  (fs.find? (fun e => e.1 = p)).map (fun e => e.2)

/-- `Path.exists()`. -/
def fsExists (fs : Fs) (p : String) : Bool :=
  (fsGet fs p).isSome

/-- `Path.unlink()` / deletion: remove every binding of `p`. -/
def fsDel (fs : Fs) (p : String) : Fs :=
  fs.filter (fun e => decide (e.1 ≠ p))

/-- `Path.write_text` / `shutil.copy2` target: bind `p` to `c`,
replacing any previous binding. -/
def fsSet (fs : Fs) (p c : String) : Fs :=
  (p, c) :: fsDel fs p

/-- One entry of `AIAgent.operation_history`
(see `_add_to_history`, agent.py lines 97-111). -/
structure OpRecord where
  operation : String
  file_path : String
  backup_path : String
  original_content : String
  timestamp : Nat
deriving Repr, DecidableEq

/-- The mutable state of one `AIAgent` instance together with the parts of
the outside world its file operations touch. -/
structure AgentState where
  /-- the working filesystem -/
  fs : Fs
  /-- the backup directory (`self.backup_dir`), keyed by backup path -/
  backups : Fs
  /-- `self.operation_history` -/
  operation_history : List OpRecord
  /-- models `datetime.now()`: advances once per mutating operation -/
  clock : Nat
deriving Repr, DecidableEq

/-- The configuration collaborator (`self.config.get` values used by the
engine), read once per operation. -/
structure Config where
  /-- `preferences.backup_enabled` (default `True`) -/
  backup_enabled : Bool := true
  /-- `preferences.max_history` (default `100`) -/
  max_history : Nat := 100
deriving Repr, DecidableEq

/-- `AIAgent._backup_file` (agent.py lines 79-95): returns `''` when the
source does not exist; otherwise copies the content under a
timestamp-suffixed name into the backup directory and returns that name,
or returns `''` when the copy raises (`copyOk = false`), having logged a
warning.  It never raises. -/
def backup_file (copyOk : Bool) (s : AgentState) (file_path : String) :
    String × AgentState :=
  match fsGet s.fs file_path with
  | none => ("", s)
  | some content =>
    let backup_path := file_path ++ ".backup_" ++ toString s.clock
    if copyOk then
      (backup_path, { s with backups := fsSet s.backups backup_path content })
    else
      ("", s)

/-- `AIAgent._add_to_history` (agent.py lines 97-111).  The trimming step is
Python's `self.operation_history[-max_history:]`: for `max_history ≥ 1`
this keeps the last `max_history` elements, but for `max_history = 0` the
slice `[-0:]` is `[0:]` and keeps the whole list. -/
def add_to_history (max_history : Nat) (hist : List OpRecord) (entry : OpRecord) :
    List OpRecord :=
  let h := hist ++ [entry]
  if h.length > max_history then
    if max_history = 0 then h else h.drop (h.length - max_history)
  else h

/-- Success payload of `AIAgent.write_file`. -/
structure WriteResult where
  file_path : String
  operation : String
  /-- `none` models Python `None`; `some ""` models the empty-string
  reference a failed backup leaves behind -/
  backup_path : Option String
  bytes_written : Nat
deriving Repr, DecidableEq

/-- `AIAgent.write_file` (agent.py lines 162-200).  Faithfully to the
source, the create/modify classification happens AFTER
`path.write_text`, on the post-write filesystem. -/
def write_file (cfg : Config) (copyOk : Bool) (s : AgentState)
    (file_path content : String) (create_backup : Option Bool) :
    Except String WriteResult × AgentState :=
  let cb := create_backup.getD cfg.backup_enabled
  let doBackup := fsExists s.fs file_path && cb
  let backup_path : Option String :=
    if doBackup then some (backup_file copyOk s file_path).1 else none
  let original_content : Option String :=
    if doBackup then some ((fsGet s.fs file_path).getD "") else none
  let s1 := if doBackup then (backup_file copyOk s file_path).2 else s
  let fs2 := fsSet s1.fs file_path content
  -- the source checks `path.exists()` here, i.e. after the write
  let operation := if fsExists fs2 file_path then "modify" else "create"
  let entry : OpRecord :=
    { operation := operation, file_path := file_path,
      backup_path := backup_path.getD "",
      original_content := original_content.getD "",
      timestamp := s.clock }
  let hist := add_to_history cfg.max_history s1.operation_history entry
  (Except.ok { file_path := file_path, operation := operation,
               backup_path := backup_path,
               bytes_written := content.utf8ByteSize },
   { s1 with fs := fs2, operation_history := hist, clock := s.clock + 1 })

/-- Success payload of `AIAgent.remove_file`. -/
structure RemoveResult where
  file_path : String
  operation : String
  backup_path : Option String
deriving Repr, DecidableEq

/-- `AIAgent.remove_file` (agent.py lines 270-305).  The `File not found`
raise is caught by the method's own `except` clause and re-raised wrapped,
which is the message modelled here. -/
def remove_file (cfg : Config) (copyOk : Bool) (s : AgentState)
    (file_path : String) (create_backup : Option Bool) :
    Except String RemoveResult × AgentState :=
  if fsExists s.fs file_path = false then
    (Except.error ("Error removing file " ++ file_path ++ ": File not found: " ++ file_path), s)
  else
    let cb := create_backup.getD cfg.backup_enabled
    let backup_path : Option String :=
      if cb then some (backup_file copyOk s file_path).1 else none
    let original_content : Option String :=
      if cb then some ((fsGet s.fs file_path).getD "") else none
    let s1 := if cb then (backup_file copyOk s file_path).2 else s
    let fs2 := fsDel s1.fs file_path
    let entry : OpRecord :=
      { operation := "remove", file_path := file_path,
        backup_path := backup_path.getD "",
        original_content := original_content.getD "",
        timestamp := s.clock }
    let hist := add_to_history cfg.max_history s1.operation_history entry
    (Except.ok { file_path := file_path, operation := "remove",
                 backup_path := backup_path },
     { s1 with fs := fs2, operation_history := hist, clock := s.clock + 1 })

/-- Python `content.split` at newline characters over a character list:
n separators give n+1 segments. -/
def splitLines : List Char → List (List Char)
  | [] => [[]]
  | c :: rest =>
    let r := splitLines rest
    if c = '\n' then [] :: r
    else (c :: r.headD []) :: r.tail

/-- Python `str.strip()`: drop leading and trailing whitespace. -/
def trimChars (l : List Char) : List Char :=
  ((l.dropWhile Char.isWhitespace).reverse.dropWhile Char.isWhitespace).reverse

/-- Success payload of `AIAgent.read_file` (content plus the metadata
fields the model keeps). -/
structure ReadResult where
  file_path : String
  content : String
  size : Nat
  lines : Nat
deriving Repr, DecidableEq

/-- `AIAgent.read_file` (agent.py lines 113-160): pure; raises a wrapped
`FileOperationError` when the path does not exist.  The latin-1 fallback
makes decoding total, so in the model a read of an existing path always
succeeds. -/
def read_file (s : AgentState) (file_path : String) : Except String ReadResult :=
  match fsGet s.fs file_path with
  | none =>
    Except.error ("Error reading file " ++ file_path ++ ": File not found: " ++ file_path)
  | some content =>
    Except.ok { file_path := file_path, content := content,
                size := content.utf8ByteSize,
                lines := (splitLines content.toList).length }

/-- Success payload of `AIAgent.undo_last_operation`. -/
structure UndoResult where
  undone_operation : String
  file_path : String
  timestamp : Nat
deriving Repr, DecidableEq

/-- The filesystem reversal `undo_last_operation` performs after popping
`last` (agent.py lines 321-338), as a function of the popped state's
filesystem and backup store: `some fs2` means the reversal writes/unlinks
producing `fs2`; `none` means no filesystem action is taken. -/
def undoStep (s1 : AgentState) (last : OpRecord) : Option Fs :=
  if last.operation = "create" then
    if fsExists s1.fs last.file_path then some (fsDel s1.fs last.file_path) else none
  else if last.operation = "modify" || last.operation = "remove" then
    if last.backup_path ≠ "" && (fsGet s1.backups last.backup_path).isSome then
      some (fsSet s1.fs last.file_path ((fsGet s1.backups last.backup_path).getD ""))
    else if last.original_content ≠ "" then
      some (fsSet s1.fs last.file_path last.original_content)
    else none
  else none

/-- `AIAgent.undo_last_operation` (agent.py lines 307-350).  The record is
popped first; `restoreOk = false` models the filesystem step of the
reversal (`unlink` / `shutil.copy2` / `write_text`) raising, in which case
the exception is wrapped and re-raised while the pop survives. -/
def undo_last_operation (restoreOk : Bool) (s : AgentState) :
    Except String UndoResult × AgentState :=
  match s.operation_history.getLast? with
  | none => (Except.error "Error undoing operation: No operations to undo", s)
  | some last =>
    let s1 := { s with operation_history := s.operation_history.dropLast }
    match undoStep s1 last with
    | none =>
      (Except.ok { undone_operation := last.operation,
                   file_path := last.file_path, timestamp := last.timestamp }, s1)
    | some fs2 =>
      if restoreOk then
        (Except.ok { undone_operation := last.operation,
                     file_path := last.file_path, timestamp := last.timestamp },
         { s1 with fs := fs2 })
      else
        (Except.error "Error undoing operation: filesystem restore failed", s1)

/-- The empty engine state (fresh `AIAgent`: empty history, empty backup
directory), over an empty working filesystem. -/
def s0 : AgentState := { fs := [], backups := [], operation_history := [], clock := 0 }

/-- The default configuration (`backup_enabled = True`, `max_history = 100`). -/
def cfgDefault : Config := {}

/-!
## Search (`AIAgent.search_files`, agent.py lines 202-268)

`re.finditer(pat, content, re.IGNORECASE)` and
`re.search(pat, name, re.IGNORECASE)` are modelled for literal patterns
(the only kind the spec's properties exercise): non-overlapping,
left-to-right, case-insensitive occurrences of the pattern string.
-/

/-- Lower-case a character list (`re.IGNORECASE` on literal patterns). -/
def toLowerList (l : List Char) : List Char := l.map Char.toLower


/-- Helper for `findStarts`: scans the text character by character;
`skip` counts positions still covered by the previous match, inside which
no new match may begin (non-overlapping semantics). -/
def findStartsAux (pat : List Char) : List Char → Nat → Nat → List Nat
  | [], _, _ => []
  | _ :: rest, i, Nat.succ skip => findStartsAux pat rest (i + 1) skip
  | c :: rest, i, 0 =>
    if pat.isPrefixOf (c :: rest) then
      i :: findStartsAux pat rest (i + 1) (pat.length - 1)
    else
      findStartsAux pat rest (i + 1) 0

/-- Start positions of the non-overlapping left-to-right occurrences of
`pat` in the text, first position being `i`: the match positions
`re.finditer` reports for a literal pattern. -/
def findStarts (pat : List Char) (text : List Char) (i : Nat) : List Nat :=
  findStartsAux pat text i 0

/-- The total number of (case-insensitive, non-overlapping) occurrences of
`pat` in `text`: the length of the full `re.finditer` match list, i.e. the
true total the source stores in `content_matches`. -/
def countMatches (pat text : String) : Nat :=
  (findStarts (toLowerList pat.toList) (toLowerList text.toList) 0).length

/-- `re.search(pat, name, re.IGNORECASE)` truthiness for a literal
pattern. -/
def nameMatches (pat name : String) : Bool :=
  (findStarts (toLowerList pat.toList) (toLowerList name.toList) 0) ≠ []

/-- One entry of a result's `match_lines` list. -/
structure MatchLine where
  line_number : Nat
  line_content : String
  match_text : String
deriving Repr, DecidableEq

/-- One entry of the `results` list of `search_files`.  `content_matches`
and `match_lines` are `none` when no content pattern was supplied (the
source only adds those keys then). -/
structure FileSearchInfo where
  file_path : String
  filename : String
  extension : String
  size : Nat
  content_matches : Option Nat
  match_lines : Option (List MatchLine)
deriving Repr, DecidableEq

/-- One file of the searched directory tree, in `rglob` order.
`decodable = false` models a file whose bytes raise `UnicodeDecodeError`
(or `PermissionError`) when read as text. -/
structure SearchFile where
  path : String
  name : String
  ext : String
  size : Nat
  content : String
  decodable : Bool
deriving Repr, DecidableEq

/-- The per-file body of the `search_files` loop (agent.py lines 213-257):
`none` means the file is skipped (filter miss, undecodable content, or no
content match), `some info` the entry appended to `results`. -/
def searchOneFile (pattern extension content_pattern : String) (f : SearchFile) :
    Option FileSearchInfo :=
  if extension ≠ "" && f.ext ≠ extension then none
  else if pattern ≠ "" && !(nameMatches pattern f.name) then none
  else
    let base : FileSearchInfo :=
      { file_path := f.path, filename := f.name, extension := f.ext,
        size := f.size, content_matches := none, match_lines := none }
    if content_pattern ≠ "" then
      if !f.decodable then none
      else
        let starts := findStarts (toLowerList content_pattern.toList)
                                 (toLowerList f.content.toList) 0
        if starts = [] then none
        else
          let lines := splitLines f.content.toList
          let patLen := content_pattern.toList.length
          let mls := (starts.take 5).filterMap (fun st =>
            let line_number := (f.content.toList.take st).count '\n' + 1
            if line_number ≤ lines.length then
              some { line_number := line_number,
                     line_content := String.mk (trimChars (lines.getD (line_number - 1) [])),
                     match_text := String.mk ((f.content.toList.drop st).take patLen) }
            else none)
          some { base with content_matches := some starts.length,
                           match_lines := some mls }
    else some base

/-- Success payload of `search_files`. -/
structure SearchResults where
  results : List FileSearchInfo
  total_files : Nat
deriving Repr, DecidableEq

/-- `AIAgent.search_files` over the listing of an existing directory.
Directory traversal is modelled by the listing itself; the
directory-not-found raise is not reachable in this model. -/
def search_files (dir : List SearchFile) (pattern extension content_pattern : String) :
    SearchResults :=
  let rs := dir.filterMap (searchOneFile pattern extension content_pattern)
  { results := rs, total_files := rs.length }

/-!
## Tool registry and dispatcher (`ToolsManager`, tools.py lines 22-291)

The registry is a list of descriptors (the source's dict in insertion
order, names unique).  Handlers are arbitrary state transformers over a
caller-chosen state type `σ`, taking the keyword arguments (values of a
caller-chosen type `κ`) and either returning a result of type `α` or
raising (`Except.error`).
-/

/-- The per-parameter schema entry (`{'type': ..., 'required': ...,
'description': ...}`); `required` defaults to absent/false, matching
`param_info.get('required', False)`. -/
structure ParamInfo where
  ty : String := "string"
  required : Bool := false
  description : String := ""
deriving Repr, DecidableEq

/-- One registry entry of `ToolsManager.tools`. -/
structure Tool (σ κ α : Type) where
  name : String
  description : String
  category : String
  parameters : List (String × ParamInfo)
  handler : List (String × κ) → σ → Except String α × σ

/-- `kwargs` lookup (`param_name not in kwargs` is `lookupArg ... = none`). -/
def lookupArg {κ : Type} (kwargs : List (String × κ)) (k : String) : Option κ :=
  (kwargs.find? (fun e => e.1 = k)).map (fun e => e.2)

/-- What `execute_tool` hands back to its caller: the handler's result
dictionary, or a dictionary tagged with an `'error'` key.  Either way it
is a returned value — `execute_tool` never raises. -/
inductive ToolOutcome (α : Type) where
  | result : α → ToolOutcome α
  | errorResult : String → ToolOutcome α
deriving Repr, DecidableEq

/-- `ToolsManager.execute_tool` (tools.py lines 258-275): unknown-tool
check, then the required-parameter validation loop (first missing required
parameter, in schema order, aborts), then the handler call with its
exceptions caught and converted to an error result. -/
def execute_tool {σ κ α : Type} (tools : List (Tool σ κ α)) (tool_name : String)
    (kwargs : List (String × κ)) (s : σ) : ToolOutcome α × σ :=
  match tools.find? (fun t => t.name = tool_name) with
  | none => (ToolOutcome.errorResult ("Tool \"" ++ tool_name ++ "\" not found"), s)
  | some tool =>
    match tool.parameters.find? (fun pr => pr.2.required && (lookupArg kwargs pr.1).isNone) with
    | some pr =>
      (ToolOutcome.errorResult ("Required parameter \"" ++ pr.1 ++ "\" missing"), s)
    | none =>
      match tool.handler kwargs s with
      | (Except.ok a, s') => (ToolOutcome.result a, s')
      | (Except.error e, s') =>
        (ToolOutcome.errorResult ("Tool execution failed: " ++ e), s')

/-!
## Sequences of mutating operations

Used to state history-shape properties over arbitrary runs of the engine.
-/

/-- One mutating engine call. -/
inductive MutOp where
  | write (file_path content : String) (create_backup : Option Bool)
  | remove (file_path : String) (create_backup : Option Bool)
deriving Repr, DecidableEq

/-- Run one mutating call, keeping only the state (results discarded;
a raise leaves the state the method built before raising). -/
def applyOp (cfg : Config) (copyOk : Bool) (s : AgentState) : MutOp → AgentState
  | MutOp.write p c b => (write_file cfg copyOk s p c b).2
  | MutOp.remove p b => (remove_file cfg copyOk s p b).2

/-- Run a sequence of mutating calls. -/
def applyOps (cfg : Config) (copyOk : Bool) (s : AgentState) : List MutOp → AgentState
  | [] => s
  | op :: ops => applyOps cfg copyOk (applyOp cfg copyOk s op) ops

/-- The records the call appends to the history (none for a failed
remove): obtained by running the same call with the history emptied. -/
def opNewEntries (cfg : Config) (copyOk : Bool) (s : AgentState) (op : MutOp) :
    List OpRecord :=
  (applyOp cfg copyOk { s with operation_history := [] } op).operation_history

/-- The full ledger of records a run appends, in append order, before any
eviction. -/
def opLedger (cfg : Config) (copyOk : Bool) : AgentState → List MutOp → List OpRecord
  | _, [] => []
  | s, op :: ops =>
    opNewEntries cfg copyOk s op ++ opLedger cfg copyOk (applyOp cfg copyOk s op) ops

/-- The last `k` elements of a list. -/
def lastN {α : Type} (k : Nat) (l : List α) : List α := l.drop (l.length - k)

/-!
## Basic lemmas about the filesystem model and the history
-/

theorem fsGet_cons (e : String × String) (t : Fs) (q : String) :
    fsGet (e :: t) q = if e.1 = q then some e.2 else fsGet t q := by
  by_cases h : e.1 = q <;> simp [fsGet, List.find?_cons, h]

theorem fsDel_cons (e : String × String) (t : Fs) (p : String) :
    fsDel (e :: t) p = if e.1 = p then fsDel t p else e :: fsDel t p := by
  by_cases h : e.1 = p <;> simp [fsDel, List.filter_cons, h]

theorem fsGet_fsDel_ne (fs : Fs) (p q : String) (h : q ≠ p) :
    fsGet (fsDel fs p) q = fsGet fs q := by
  induction fs with
  | nil => rfl
  | cons e t ih =>
    rw [fsDel_cons]
    by_cases he : e.1 = p
    · rw [if_pos he, ih, fsGet_cons, if_neg (fun hq : e.1 = q => h (hq ▸ he ▸ rfl))]
    · rw [if_neg he, fsGet_cons, fsGet_cons, ih]

theorem fsGet_fsDel_self (fs : Fs) (p : String) :
    fsGet (fsDel fs p) p = none := by
  induction fs with
  | nil => rfl
  | cons e t ih =>
    rw [fsDel_cons]
    by_cases he : e.1 = p
    · rw [if_pos he]; exact ih
    · rw [if_neg he, fsGet_cons, if_neg he]; exact ih

theorem fsGet_fsSet_self (fs : Fs) (p c : String) :
    fsGet (fsSet fs p c) p = some c := by
  rw [fsSet, fsGet_cons]; exact if_pos rfl

theorem fsGet_fsSet_ne (fs : Fs) (p c q : String) (h : q ≠ p) :
    fsGet (fsSet fs p c) q = fsGet fs q := by
  rw [fsSet, fsGet_cons, if_neg (fun hq : p = q => h hq.symm), fsGet_fsDel_ne fs p q h]

theorem fsExists_fsSet_self (fs : Fs) (p c : String) :
    fsExists (fsSet fs p c) p = true := by
  simp [fsExists, fsGet_fsSet_self]

theorem getLast?_add_to_history (max_history : Nat) (hist : List OpRecord)
    (entry : OpRecord) :
    (add_to_history max_history hist entry).getLast? = some entry := by
  unfold add_to_history
  by_cases hlen : (hist ++ [entry]).length > max_history
  · by_cases h0 : max_history = 0
    · simp [hlen, h0]
    · simp only [hlen, if_true, h0, if_false]
      rw [List.drop_append_eq_append_drop]
      have h1 : (hist ++ [entry]).length - max_history - hist.length = 0 := by
        simp only [List.length_append, List.length_singleton]
        omega
      rw [h1, List.drop_zero]
      exact List.getLast?_concat _
  · have hlt : ¬ max_history < hist.length + 1 := by
      simp only [List.length_append, List.length_singleton] at hlen
      omega
    simp only [gt_iff_lt, List.length_append, List.length_singleton, hlt, if_false]
    exact List.getLast?_concat _

theorem lastN_of_length_le {α : Type} (k : Nat) (l : List α) (h : l.length ≤ k) :
    lastN k l = l := by
  unfold lastN
  have h0 : l.length - k = 0 := by omega
  rw [h0, List.drop_zero]

theorem lastN_length_le {α : Type} (k : Nat) (l : List α) : (lastN k l).length ≤ k := by
  unfold lastN
  simp only [List.length_drop]
  omega

theorem add_to_history_eq_lastN (max_history : Nat) (h1 : 1 ≤ max_history)
    (hist : List OpRecord) (entry : OpRecord) :
    add_to_history max_history hist entry = lastN max_history (hist ++ [entry]) := by
  unfold add_to_history lastN
  simp only [List.length_append, List.length_singleton, gt_iff_lt]
  by_cases hlen : max_history < hist.length + 1
  · rw [if_pos hlen, if_neg (by omega : ¬ max_history = 0)]
  · rw [if_neg hlen]
    have h0 : hist.length + 1 - max_history = 0 := by omega
    rw [h0, List.drop_zero]

theorem add_to_history_nil (max_history : Nat) (entry : OpRecord) :
    add_to_history max_history [] entry = [entry] := by
  unfold add_to_history
  simp only [List.nil_append, List.length_singleton, gt_iff_lt]
  by_cases h0 : max_history = 0
  · rw [if_pos (by omega), if_pos h0]
  · rw [if_neg (by omega : ¬ max_history < 1)]

theorem lastN_append_lastN {α : Type} (k : Nat) (l m : List α) :
    lastN k (lastN k l ++ m) = lastN k (l ++ m) := by
  rcases Nat.le_total l.length k with hk | hk
  · rw [lastN_of_length_le k l hk]
  · unfold lastN
    have hx : (l.drop (l.length - k)).length = k := by
      simp only [List.length_drop]; omega
    rw [List.drop_append_eq_append_drop, List.drop_append_eq_append_drop]
    congr 1
    · rw [List.drop_drop]
      congr 1
      simp only [List.length_append, List.length_drop]
      omega
    · congr 1
      simp only [List.length_append, List.length_drop]
      omega

theorem backup_file_fs (copyOk : Bool) (s : AgentState) (p : String) :
    (backup_file copyOk s p).2.fs = s.fs := by
  unfold backup_file
  rcases h : fsGet s.fs p with _ | c <;> by_cases hc : copyOk <;> simp [h, hc]

theorem backup_file_history (copyOk : Bool) (s : AgentState) (p : String) :
    (backup_file copyOk s p).2.operation_history = s.operation_history := by
  unfold backup_file
  rcases h : fsGet s.fs p with _ | c <;> by_cases hc : copyOk <;> simp [h, hc]

theorem backup_file_clock (copyOk : Bool) (s : AgentState) (p : String) :
    (backup_file copyOk s p).2.clock = s.clock := by
  unfold backup_file
  rcases h : fsGet s.fs p with _ | c <;> by_cases hc : copyOk <;> simp [h, hc]

theorem backup_file_fst_eq (copyOk : Bool) (s t : AgentState) (p : String)
    (hfs : t.fs = s.fs) (hclock : t.clock = s.clock) :
    (backup_file copyOk t p).1 = (backup_file copyOk s p).1 := by
  unfold backup_file
  rw [hfs, hclock]
  rcases fsGet s.fs p with _ | c <;> by_cases hc : copyOk <;> simp [hc]

theorem applyOp_history (cfg : Config) (copyOk : Bool) (s : AgentState) (op : MutOp)
    (h1 : 1 ≤ cfg.max_history) (h2 : s.operation_history.length ≤ cfg.max_history) :
    (applyOp cfg copyOk s op).operation_history =
      lastN cfg.max_history (s.operation_history ++ opNewEntries cfg copyOk s op) := by
  cases op with
  | write p c b =>
    simp only [applyOp, opNewEntries, write_file, apply_ite AgentState.operation_history,
      apply_ite AgentState.fs, backup_file_fs, backup_file_history, backup_file_clock,
      ite_self, add_to_history_nil]
    rw [add_to_history_eq_lastN _ h1,
      backup_file_fst_eq copyOk s ⟨s.fs, s.backups, [], s.clock⟩ p rfl rfl]
  | remove p b =>
    by_cases hex : fsExists s.fs p
    · simp only [applyOp, opNewEntries, remove_file, hex,
        apply_ite AgentState.operation_history, apply_ite AgentState.fs,
        backup_file_fs, backup_file_history, backup_file_clock, ite_self,
        add_to_history_nil]
      simp only [show ((true : Bool) = false) = False by simp, if_false,
        apply_ite AgentState.operation_history, backup_file_history, ite_self,
        add_to_history_nil]
      rw [add_to_history_eq_lastN _ h1,
        backup_file_fst_eq copyOk s ⟨s.fs, s.backups, [], s.clock⟩ p rfl rfl]
    · simp only [applyOp, opNewEntries, remove_file, hex]
      simp only [show ((false : Bool) = false) = True by simp, if_true,
        List.append_nil, lastN_of_length_le _ _ h2]

theorem applyOps_history (cfg : Config) (copyOk : Bool) (h1 : 1 ≤ cfg.max_history) :
    ∀ (ops : List MutOp) (s : AgentState),
      s.operation_history.length ≤ cfg.max_history →
      (applyOps cfg copyOk s ops).operation_history =
        lastN cfg.max_history (s.operation_history ++ opLedger cfg copyOk s ops) := by
  intro ops
  induction ops with
  | nil =>
    intro s h2
    simp [applyOps, opLedger, lastN_of_length_le _ _ h2]
  | cons op ops ih =>
    intro s h2
    have hstep := applyOp_history cfg copyOk s op h1 h2
    have hlen : (applyOp cfg copyOk s op).operation_history.length ≤ cfg.max_history := by
      rw [hstep]; exact lastN_length_le _ _
    simp only [applyOps, opLedger]
    rw [ih _ hlen, hstep, lastN_append_lastN, List.append_assoc]

/-!
## Claim-side (spec-side) definitions

These follow the specification's words, for comparison against the
source-derived definitions above.
-/

/-- Whether a record's `backup_reference` "resolves to existing content"
in a given backup store: a non-empty reference naming a stored snapshot. -/
def backupResolves (backups : Fs) (entry : OpRecord) : Bool :=
  entry.backup_path ≠ "" && (fsGet backups entry.backup_path).isSome

/-- The spec's Operation Record invariant, stated from its words: exactly
one of (backup reference resolves, prior content non-empty) holds whenever
the kind is Modify or Remove; for Create both are empty/absent. -/
def specRecordInvariant (backups : Fs) (entry : OpRecord) : Bool :=
  (if entry.operation = "modify" || entry.operation = "remove" then
    (backupResolves backups entry && entry.original_content = "") ||
    (!backupResolves backups entry && entry.original_content ≠ "")
  else true) &&
  (if entry.operation = "create" then
    !backupResolves backups entry && entry.original_content = ""
  else true)

/-!
## The claims
-/

/-- The engine state after `write_file("a.txt", "hello")` on an empty
filesystem, default configuration (backups enabled). -/
def c1AfterWrite : AgentState := (write_file cfgDefault true s0 "a.txt" "hello" none).2

/-- C1: the claimed write/undo round trip FAILS on the code.  Writing
`"hello"` to the previously nonexistent `a.txt` and then undoing leaves
`a.txt` in existence with content `"hello"` (the undo succeeds but is a
no-op): because `write_file` classifies the operation after the write, the
record says `modify` with no backup and no prior content, so nothing is
reversed. -/
theorem C1_code_behavior :
    fsExists s0.fs "a.txt" = false ∧
    (undo_last_operation true c1AfterWrite).1.isOk = true ∧
    fsGet (undo_last_operation true c1AfterWrite).2.fs "a.txt" = some "hello" := by
  decide

/-- C2: the operation recorded in history and returned in the payload is
ALWAYS `"modify"`, never `"create"`, whatever the prior existence of the
path: the source computes `'modify' if path.exists() else 'create'` after
`path.write_text`, when the path always exists. -/
theorem C2_code_behavior (cfg : Config) (copyOk : Bool) (s : AgentState)
    (p c : String) (b : Option Bool) :
    (write_file cfg copyOk s p c b).1.map (fun r => r.operation) = Except.ok "modify" ∧
    ((write_file cfg copyOk s p c b).2.operation_history.getLast?).map
        (fun e => e.operation) = some "modify" := by
  refine ⟨?_, ?_⟩ <;>
    simp [write_file, Except.map, fsExists_fsSet_self, getLast?_add_to_history,
      apply_ite AgentState.operation_history, apply_ite AgentState.fs,
      backup_file_history, backup_file_fs, ite_self]

/-- The engine state after writing `"v1"` and then `"v2"` to `a.txt`
(backups enabled and the copy succeeding). -/
def c3State : AgentState :=
  (write_file cfgDefault true (write_file cfgDefault true s0 "a.txt" "v1" none).2
    "a.txt" "v2" none).2

/-- C3 counterexample: after the reachable two-write sequence the latest
record (kind `modify`) has a backup reference that resolves AND a
non-empty `prior_content` — the spec's "exactly one" invariant is false on
the code. -/
theorem C3_counterexample :
    ¬ (∀ entry ∈ c3State.operation_history,
        specRecordInvariant c3State.backups entry = true) := by
  decide

/-- The configuration with `max_history = 0`. -/
def cfgZeroHistory : Config := { backup_enabled := true, max_history := 0 }

/-- C6 counterexample: with the configured `max_history = 0`, a single
write leaves the history at length 1 > 0 — Python's `history[-0:]` keeps
the whole list, so the claimed bound fails for this configuration. -/
theorem C6_counterexample :
    ¬ ((write_file cfgZeroHistory true s0 "a.txt" "x" none).2.operation_history.length
        ≤ cfgZeroHistory.max_history) := by
  decide

/-- C9 counterexample: `read_file` on a missing path does not return a
tagged failure result — the failure escapes the method as a raised
`FileOperationError` (modelled by `Except.error`), falsifying the claim
that File Transaction Engine operations never let an exception escape. -/
theorem C9_counterexample :
    (read_file s0 "a.txt").isOk = false ∧
    read_file s0 "a.txt" =
      Except.error "Error reading file a.txt: File not found: a.txt" :=
  ⟨rfl, rfl⟩

theorem backup_file_of_some (copyOk : Bool) (s : AgentState) (p prior : String)
    (h : fsGet s.fs p = some prior) :
    backup_file copyOk s p =
      (if copyOk then p ++ ".backup_" ++ toString s.clock else "",
       if copyOk then
         { s with backups := fsSet s.backups (p ++ ".backup_" ++ toString s.clock) prior }
       else s) := by
  unfold backup_file
  rw [h]
  by_cases hc : copyOk <;> simp [hc]

theorem backup_file_of_none (copyOk : Bool) (s : AgentState) (p : String)
    (h : fsGet s.fs p = none) :
    backup_file copyOk s p = ("", s) := by
  unfold backup_file
  rw [h]

/-- C3 amended: the spec's "exactly one" does not hold; what the code
maintains instead, with backups enabled, is: a record for mutating an
existing file carries `prior_content` equal to the file's prior content
AND a backup reference, the reference being the timestamped snapshot name
exactly when the copy succeeded (so both legs hold on a successful backup
of a non-empty file, and only the `prior_content` leg when the copy
failed) and `""` otherwise; a write to a nonexistent path appends a record
with both fields empty whose kind is nonetheless `"modify"` — the code
never produces Create records. -/
theorem C3_amended (cfg : Config) (copyOk : Bool) (s : AgentState) (p c prior : String)
    (hb : cfg.backup_enabled = true) :
    (fsGet s.fs p = some prior →
      (write_file cfg copyOk s p c none).2.operation_history.getLast? =
        some { operation := "modify", file_path := p,
               backup_path := if copyOk then p ++ ".backup_" ++ toString s.clock else "",
               original_content := prior, timestamp := s.clock } ∧
      (copyOk = true →
        fsGet (write_file cfg copyOk s p c none).2.backups
          (p ++ ".backup_" ++ toString s.clock) = some prior)) ∧
    (fsGet s.fs p = none →
      (write_file cfg copyOk s p c none).2.operation_history.getLast? =
        some { operation := "modify", file_path := p, backup_path := "",
               original_content := "", timestamp := s.clock }) ∧
    (fsGet s.fs p = some prior →
      (remove_file cfg copyOk s p none).2.operation_history.getLast? =
        some { operation := "remove", file_path := p,
               backup_path := if copyOk then p ++ ".backup_" ++ toString s.clock else "",
               original_content := prior, timestamp := s.clock } ∧
      (copyOk = true →
        fsGet (remove_file cfg copyOk s p none).2.backups
          (p ++ ".backup_" ++ toString s.clock) = some prior)) := by
  refine ⟨fun h => ⟨?_, fun hc => ?_⟩, fun h => ?_, fun h => ⟨?_, fun hc => ?_⟩⟩
  · have hex : fsExists s.fs p = true := by simp [fsExists, h]
    simp [write_file, hex, hb, backup_file_of_some copyOk s p prior h, h,
      getLast?_add_to_history, fsExists_fsSet_self, apply_ite AgentState.operation_history,
      apply_ite AgentState.fs, ite_self]
  · have hex : fsExists s.fs p = true := by simp [fsExists, h]
    subst hc
    simp [write_file, hex, hb, backup_file_of_some true s p prior h,
      fsGet_fsSet_self]
  · have hex : fsExists s.fs p = false := by simp [fsExists, h]
    simp [write_file, hex, getLast?_add_to_history, fsExists_fsSet_self]
  · have hex : fsExists s.fs p = true := by simp [fsExists, h]
    simp [remove_file, hex, hb, backup_file_of_some copyOk s p prior h, h,
      getLast?_add_to_history, apply_ite AgentState.operation_history,
      apply_ite AgentState.fs, ite_self]
  · have hex : fsExists s.fs p = true := by simp [fsExists, h]
    subst hc
    simp [remove_file, hex, hb, backup_file_of_some true s p prior h,
      fsGet_fsSet_self]

/-- C3 amended, witnessed: modifying the existing non-empty `a.txt` with a
successful backup appends the record with both a resolving reference and
the non-empty prior content; writing to the fresh path `b.txt` appends a
`"modify"` record with both fields empty; removing `a.txt` behaves like
the modify case. -/
theorem C3_amended_witness :
    (fsGet ((write_file cfgDefault true s0 "a.txt" "v1" none).2).fs "a.txt" = some "v1" ∧
     cfgDefault.backup_enabled = true) ∧
    ((fsGet ((write_file cfgDefault true s0 "a.txt" "v1" none).2).fs "a.txt" = some "v1" →
      (write_file cfgDefault true ((write_file cfgDefault true s0 "a.txt" "v1" none).2)
          "a.txt" "v2" none).2.operation_history.getLast? =
        some { operation := "modify", file_path := "a.txt",
               backup_path :=
                 if true then "a.txt" ++ ".backup_" ++
                   toString ((write_file cfgDefault true s0 "a.txt" "v1" none).2).clock
                 else "",
               original_content := "v1",
               timestamp := ((write_file cfgDefault true s0 "a.txt" "v1" none).2).clock } ∧
      (true = true →
        fsGet (write_file cfgDefault true ((write_file cfgDefault true s0 "a.txt" "v1" none).2)
            "a.txt" "v2" none).2.backups
          ("a.txt" ++ ".backup_" ++
            toString ((write_file cfgDefault true s0 "a.txt" "v1" none).2).clock) =
          some "v1")) ∧
     (fsGet ((write_file cfgDefault true s0 "a.txt" "v1" none).2).fs "a.txt" = none →
      (write_file cfgDefault true ((write_file cfgDefault true s0 "a.txt" "v1" none).2)
          "a.txt" "v2" none).2.operation_history.getLast? =
        some { operation := "modify", file_path := "a.txt", backup_path := "",
               original_content := "",
               timestamp := ((write_file cfgDefault true s0 "a.txt" "v1" none).2).clock }) ∧
     (fsGet ((write_file cfgDefault true s0 "a.txt" "v1" none).2).fs "a.txt" = some "v1" →
      (remove_file cfgDefault true ((write_file cfgDefault true s0 "a.txt" "v1" none).2)
          "a.txt" none).2.operation_history.getLast? =
        some { operation := "remove", file_path := "a.txt",
               backup_path :=
                 if true then "a.txt" ++ ".backup_" ++
                   toString ((write_file cfgDefault true s0 "a.txt" "v1" none).2).clock
                 else "",
               original_content := "v1",
               timestamp := ((write_file cfgDefault true s0 "a.txt" "v1" none).2).clock } ∧
      (true = true →
        fsGet (remove_file cfgDefault true ((write_file cfgDefault true s0 "a.txt" "v1" none).2)
            "a.txt" none).2.backups
          ("a.txt" ++ ".backup_" ++
            toString ((write_file cfgDefault true s0 "a.txt" "v1" none).2).clock) =
          some "v1"))) :=
  ⟨⟨by decide, rfl⟩,
   C3_amended cfgDefault true ((write_file cfgDefault true s0 "a.txt" "v1" none).2)
     "a.txt" "v2" "v1" rfl⟩

theorem fsExists_fsDel_self (fs : Fs) (p : String) :
    fsExists (fsDel fs p) p = false := by
  simp [fsExists, fsGet_fsDel_self]

/-- C4: with backups enabled, a failing backup step never blocks the
primary mutation.  The snapshot attempt returns the empty reference when
the copy fails and when the source does not exist; the write and the
remove still go through (success result, mutated filesystem); and the
appended Operation Record downgrades to the `prior_content` fallback
(empty `backup_path`, `original_content` = the prior content). -/
theorem C4_backup_failure_nonblocking (cfg : Config) (s : AgentState)
    (p c prior : String) (hb : cfg.backup_enabled = true)
    (h : fsGet s.fs p = some prior) :
    (backup_file false s p).1 = "" ∧
    (∀ (t : AgentState) (q : String), fsGet t.fs q = none →
      (backup_file true t q).1 = "") ∧
    (write_file cfg false s p c none).1.isOk = true ∧
    fsGet (write_file cfg false s p c none).2.fs p = some c ∧
    (write_file cfg false s p c none).2.operation_history.getLast? =
      some { operation := "modify", file_path := p, backup_path := "",
             original_content := prior, timestamp := s.clock } ∧
    (remove_file cfg false s p none).1.isOk = true ∧
    fsExists (remove_file cfg false s p none).2.fs p = false ∧
    (remove_file cfg false s p none).2.operation_history.getLast? =
      some { operation := "remove", file_path := p, backup_path := "",
             original_content := prior, timestamp := s.clock } := by
  have hex : fsExists s.fs p = true := by simp [fsExists, h]
  refine ⟨?_, fun t q hq => ?_, ?_, ?_, ?_, ?_, ?_, ?_⟩
  · simp [backup_file_of_some false s p prior h]
  · simp [backup_file_of_none true t q hq]
  · simp [write_file, Except.isOk, Except.toBool]
  · simp [write_file, fsGet_fsSet_self]
  · simp [write_file, hex, hb, backup_file_of_some false s p prior h, h,
      getLast?_add_to_history, fsExists_fsSet_self]
  · simp [remove_file, hex, Except.isOk, Except.toBool]
  · simp [remove_file, hex, apply_ite AgentState.fs, backup_file_fs, ite_self,
      fsExists_fsDel_self]
  · simp [remove_file, hex, hb, backup_file_of_some false s p prior h, h,
      getLast?_add_to_history]

/-- A one-file filesystem state: `a.txt` containing `"data"`, fresh
engine. -/
def c4s : AgentState :=
  { fs := [("a.txt", "data")], backups := [], operation_history := [], clock := 0 }

/-- C4, witnessed on `a.txt` containing `"data"` with the backup copy
failing. -/
theorem C4_witness :
    (cfgDefault.backup_enabled = true ∧ fsGet c4s.fs "a.txt" = some "data") ∧
    ((backup_file false c4s "a.txt").1 = "" ∧
     (∀ (t : AgentState) (q : String), fsGet t.fs q = none →
       (backup_file true t q).1 = "") ∧
     (write_file cfgDefault false c4s "a.txt" "x" none).1.isOk = true ∧
     fsGet (write_file cfgDefault false c4s "a.txt" "x" none).2.fs "a.txt" = some "x" ∧
     (write_file cfgDefault false c4s "a.txt" "x" none).2.operation_history.getLast? =
       some { operation := "modify", file_path := "a.txt", backup_path := "",
              original_content := "data", timestamp := c4s.clock } ∧
     (remove_file cfgDefault false c4s "a.txt" none).1.isOk = true ∧
     fsExists (remove_file cfgDefault false c4s "a.txt" none).2.fs "a.txt" = false ∧
     (remove_file cfgDefault false c4s "a.txt" none).2.operation_history.getLast? =
       some { operation := "remove", file_path := "a.txt", backup_path := "",
              original_content := "data", timestamp := c4s.clock }) :=
  ⟨⟨rfl, by decide⟩,
   C4_backup_failure_nonblocking cfgDefault c4s "a.txt" "x" "data" rfl (by decide)⟩

/-- C5: for every registered tool and argument mapping, if any parameter
marked required in the tool's schema is absent from the arguments,
`execute_tool` returns a missing-parameter failure naming such a required,
absent parameter (the first in schema order), and the state comes back
unchanged — since the handler here is universally quantified, the failure
cannot depend on it and no handler side effect can have occurred. -/
theorem C5_missing_required_param {σ κ α : Type} (tools : List (Tool σ κ α))
    (tool_name : String) (kwargs : List (String × κ)) (s : σ) (t : Tool σ κ α)
    (ht : tools.find? (fun t' => t'.name = tool_name) = some t)
    (p : String) (info : ParamInfo) (hmem : (p, info) ∈ t.parameters)
    (hreq : info.required = true) (habs : lookupArg kwargs p = none) :
    ∃ q : String, ∃ qi : ParamInfo, (q, qi) ∈ t.parameters ∧ qi.required = true ∧
      lookupArg kwargs q = none ∧
      execute_tool tools tool_name kwargs s =
        (ToolOutcome.errorResult ("Required parameter \"" ++ q ++ "\" missing"), s) := by
  have hsome : (t.parameters.find?
      (fun pr => pr.2.required && (lookupArg kwargs pr.1).isNone)).isSome := by
    rw [List.find?_isSome]
    exact ⟨(p, info), hmem, by simp [hreq, habs]⟩
  rcases hfound : t.parameters.find?
      (fun pr => pr.2.required && (lookupArg kwargs pr.1).isNone) with _ | pr
  · rw [hfound] at hsome
    simp at hsome
  · have hpred := List.find?_some hfound
    have hpmem := List.mem_of_find?_eq_some hfound
    simp only [Bool.and_eq_true, Option.isNone_iff_eq_none] at hpred
    refine ⟨pr.1, pr.2, hpmem, hpred.1, hpred.2, ?_⟩
    simp [execute_tool, ht, hfound]

/-- A registry entry for witnessing C5: modelled on the source's
`fs_read` descriptor (required `path`, optional `lines`), with a handler
that bumps a `Nat` side-effect counter whenever it runs. -/
def countingTool : Tool Nat String Nat :=
  { name := "fs_read",
    description := "Read file contents with metadata and analysis",
    category := "File Operations",
    parameters :=
      [("path", { ty := "string", required := true,
                  description := "Path to the file to read" }),
       ("lines", { ty := "string", required := false,
                   description := "Line range" })],
    handler := fun _ n => (Except.ok 0, n + 1) }

/-- C5, witnessed: invoking `fs_read` with no arguments on a zeroed
side-effect counter yields the `path`-missing failure with the counter
still untouched at `0` in the returned state. -/
theorem C5_witness :
    ([countingTool].find? (fun t' => t'.name = "fs_read") = some countingTool ∧
     ("path", ({ ty := "string", required := true,
                 description := "Path to the file to read" } : ParamInfo))
         ∈ countingTool.parameters ∧
     lookupArg ([] : List (String × String)) "path" = none) ∧
    (∃ q : String, ∃ qi : ParamInfo, (q, qi) ∈ countingTool.parameters ∧
      qi.required = true ∧ lookupArg ([] : List (String × String)) q = none ∧
      execute_tool [countingTool] "fs_read" ([] : List (String × String)) 0 =
        (ToolOutcome.errorResult ("Required parameter \"" ++ q ++ "\" missing"), 0)) :=
  ⟨⟨rfl, by simp [countingTool], rfl⟩,
   C5_missing_required_param [countingTool] "fs_read" [] 0 countingTool rfl
     "path" { ty := "string", required := true,
              description := "Path to the file to read" }
     (by simp [countingTool]) rfl rfl⟩

/-- C6 amended: for every POSITIVE configured `max_history`, after any
sequence of mutating operations started from a history within the bound,
the history equals exactly the most recent records of the run's full
append ledger, in insertion order, and in particular its length is at
most `max_history`.  (As frozen the claim also covers `max_history = 0`,
where Python's `[-0:]` slice keeps everything — see the
counterexample.) -/
theorem C6_amended (cfg : Config) (copyOk : Bool) (s : AgentState) (ops : List MutOp)
    (h1 : 1 ≤ cfg.max_history) (h2 : s.operation_history.length ≤ cfg.max_history) :
    (applyOps cfg copyOk s ops).operation_history =
      lastN cfg.max_history (s.operation_history ++ opLedger cfg copyOk s ops) ∧
    (applyOps cfg copyOk s ops).operation_history.length ≤ cfg.max_history := by
  have hmain := applyOps_history cfg copyOk h1 ops s h2
  refine ⟨hmain, ?_⟩
  rw [hmain]
  exact lastN_length_le _ _

/-- The configuration of the spec's history-bound example. -/
def cfg3 : Config := { backup_enabled := true, max_history := 3 }

/-- Five writes to distinct paths. -/
def fiveWrites : List MutOp :=
  [MutOp.write "f1.txt" "a" none, MutOp.write "f2.txt" "b" none,
   MutOp.write "f3.txt" "c" none, MutOp.write "f4.txt" "d" none,
   MutOp.write "f5.txt" "e" none]

/-- C6 amended, witnessed on the spec's example: `max_history = 3`, five
writes to distinct paths from a fresh engine — the history is exactly the
last three appended records, here length exactly 3 covering `f3.txt`,
`f4.txt`, `f5.txt` in order. -/
theorem C6_witness :
    (1 ≤ cfg3.max_history ∧ s0.operation_history.length ≤ cfg3.max_history) ∧
    ((applyOps cfg3 true s0 fiveWrites).operation_history =
       lastN cfg3.max_history (s0.operation_history ++ opLedger cfg3 true s0 fiveWrites) ∧
     (applyOps cfg3 true s0 fiveWrites).operation_history.length ≤ cfg3.max_history) ∧
    (applyOps cfg3 true s0 fiveWrites).operation_history.length = 3 ∧
    (applyOps cfg3 true s0 fiveWrites).operation_history.map (fun e => e.file_path) =
      ["f3.txt", "f4.txt", "f5.txt"] :=
  ⟨⟨by decide, by decide⟩,
   C6_amended cfg3 true s0 fiveWrites (by decide) (by decide),
   by decide, by decide⟩

theorem backupName_ne_empty (p : String) (n : Nat) :
    p ++ ".backup_" ++ toString n ≠ "" := by
  intro hcontra
  have hlen := congrArg String.length hcontra
  rw [String.length_append, String.length_append] at hlen
  have h8 : (".backup_" : String).length = 8 := by decide
  rw [h8] at hlen
  simp at hlen

/-- C7: removing an existing file with backups enabled and then undoing
restores it exactly as claimed — from the backup reference when it
resolves (the copy succeeded), else by rewriting `prior_content` verbatim
when non-empty, else (empty prior content and failed copy) the undo is a
silent no-op that still reports success. -/
theorem C7_remove_undo_restores (cfg : Config) (copyOk : Bool) (s : AgentState)
    (p prior : String) (hb : cfg.backup_enabled = true)
    (h : fsGet s.fs p = some prior) :
    (undo_last_operation true (remove_file cfg copyOk s p none).2).1 =
      Except.ok { undone_operation := "remove", file_path := p,
                  timestamp := s.clock } ∧
    (copyOk = true →
      fsGet (undo_last_operation true (remove_file cfg copyOk s p none).2).2.fs p
        = some prior) ∧
    (copyOk = false → prior ≠ "" →
      fsGet (undo_last_operation true (remove_file cfg copyOk s p none).2).2.fs p
        = some prior) ∧
    (copyOk = false → prior = "" →
      (undo_last_operation true (remove_file cfg copyOk s p none).2).2.fs =
        (remove_file cfg copyOk s p none).2.fs ∧
      fsExists (undo_last_operation true (remove_file cfg copyOk s p none).2).2.fs p
        = false) := by
  have hex : fsExists s.fs p = true := by simp [fsExists, h]
  have hname := backupName_ne_empty p s.clock
  cases copyOk with
  | true =>
    refine ⟨?_, fun _ => ?_, fun hcf => absurd hcf (by simp),
            fun hcf => absurd hcf (by simp)⟩ <;>
      simp [remove_file, hex, hb, backup_file_of_some true s p prior h,
        undo_last_operation, getLast?_add_to_history, undoStep, hname,
        fsGet_fsSet_self]
  | false =>
    by_cases hpr : prior = ""
    · subst hpr
      refine ⟨?_, fun hct => absurd hct (by simp), fun _ hpr2 => absurd rfl hpr2,
              fun _ _ => ⟨?_, ?_⟩⟩ <;>
        simp [remove_file, hex, hb, backup_file_of_some false s p "" h, h,
          undo_last_operation, getLast?_add_to_history, undoStep,
          fsExists_fsDel_self]
    · refine ⟨?_, fun hct => absurd hct (by simp), fun _ _ => ?_,
              fun _ hpr2 => absurd hpr2 hpr⟩ <;>
        simp [remove_file, hex, hb, backup_file_of_some false s p prior h, h,
          undo_last_operation, getLast?_add_to_history, undoStep, hpr,
          fsGet_fsSet_self]

/-- C7, witnessed on the spec's example: `a.txt` holds `"data"`; remove
it (backup succeeding); undo — `a.txt` exists again with `"data"`. -/
theorem C7_witness :
    (cfgDefault.backup_enabled = true ∧ fsGet c4s.fs "a.txt" = some "data") ∧
    ((undo_last_operation true (remove_file cfgDefault true c4s "a.txt" none).2).1 =
       Except.ok { undone_operation := "remove", file_path := "a.txt",
                   timestamp := c4s.clock } ∧
     (true = true →
       fsGet (undo_last_operation true
           (remove_file cfgDefault true c4s "a.txt" none).2).2.fs "a.txt"
         = some "data") ∧
     (true = false → "data" ≠ "" →
       fsGet (undo_last_operation true
           (remove_file cfgDefault true c4s "a.txt" none).2).2.fs "a.txt"
         = some "data") ∧
     (true = false → "data" = "" →
       (undo_last_operation true (remove_file cfgDefault true c4s "a.txt" none).2).2.fs =
         (remove_file cfgDefault true c4s "a.txt" none).2.fs ∧
       fsExists (undo_last_operation true
           (remove_file cfgDefault true c4s "a.txt" none).2).2.fs "a.txt"
         = false)) :=
  ⟨⟨rfl, by decide⟩,
   C7_remove_undo_restores cfgDefault true c4s "a.txt" "data" rfl (by decide)⟩

theorem searchOneFile_content_some (pattern extension content_pattern : String)
    (f : SearchFile) (info : FileSearchInfo) (hc : content_pattern ≠ "")
    (hg : searchOneFile pattern extension content_pattern f = some info) :
    f.decodable = true ∧
    info.content_matches = some (countMatches content_pattern f.content) ∧
    ∃ mls, info.match_lines = some mls ∧ mls.length ≤ 5 := by
  simp only [searchOneFile] at hg
  split at hg
  · exact absurd hg (by simp)
  · split at hg
    · exact absurd hg (by simp)
    · split at hg
      · exact absurd hg (by simp)
      · rename_i hdec
        split at hg
        · exact absurd hg (by simp)
        · rename_i hstarts
          have hinfo := Option.some.inj hg
          refine ⟨by simpa using hdec, ?_, ?_⟩
          · rw [← hinfo]
            rfl
          · refine ⟨_, by rw [← hinfo], ?_⟩
            calc _ ≤ ((findStarts (toLowerList content_pattern.toList)
                        (toLowerList f.content.toList) 0).take 5).length :=
                      List.length_filterMap_le _ _
              _ ≤ 5 := List.length_take_le _ _

theorem searchOneFile_undecodable (pattern extension content_pattern : String)
    (f : SearchFile) (hc : content_pattern ≠ "") (hdec : f.decodable = false) :
    searchOneFile pattern extension content_pattern f = none := by
  simp only [searchOneFile]
  split
  · rfl
  · split
    · rfl
    · simp [hdec]

/-- C8: with a content pattern, every entry `search_files` returns comes
from a decodable file of the directory and carries at most 5 example
match lines while its `content_matches` equals the true total number of
matches in that file (not capped at 5); undecodable files are silently
skipped — they produce no entry and no error. -/
theorem C8_search_caps (dir : List SearchFile)
    (pattern extension content_pattern : String) (hc : content_pattern ≠ "")
    (info : FileSearchInfo)
    (hmem : info ∈ (search_files dir pattern extension content_pattern).results) :
    (∃ f ∈ dir, f.decodable = true ∧
      searchOneFile pattern extension content_pattern f = some info ∧
      info.content_matches = some (countMatches content_pattern f.content) ∧
      ∃ mls, info.match_lines = some mls ∧ mls.length ≤ 5) ∧
    (∀ f ∈ dir, f.decodable = false →
      searchOneFile pattern extension content_pattern f = none) := by
  constructor
  · have hmem' : info ∈ dir.filterMap (searchOneFile pattern extension content_pattern) :=
      hmem
    rcases List.mem_filterMap.mp hmem' with ⟨f, hf, hg⟩
    have hchar := searchOneFile_content_some pattern extension content_pattern f info hc hg
    exact ⟨f, hf, hchar.1, hg, hchar.2.1, hchar.2.2⟩
  · intro f hf hdec
    exact searchOneFile_undecodable pattern extension content_pattern f hc hdec

/-- The spec's search example: one file containing 8 occurrences of the
word `class`. -/
def classFile : SearchFile :=
  { path := "src/a.py", name := "a.py", ext := ".py", size := 47,
    content := "class class class class class class class class",
    decodable := true }

/-- The entry `search_files` produces for `classFile` under the content
pattern `"class"`: the true total 8, and only 5 example match lines. -/
def classInfo : FileSearchInfo :=
  { file_path := "src/a.py", filename := "a.py", extension := ".py", size := 47,
    content_matches := some 8,
    match_lines := some
      [{ line_number := 1, line_content := classFile.content, match_text := "class" },
       { line_number := 1, line_content := classFile.content, match_text := "class" },
       { line_number := 1, line_content := classFile.content, match_text := "class" },
       { line_number := 1, line_content := classFile.content, match_text := "class" },
       { line_number := 1, line_content := classFile.content, match_text := "class" }] }

/-- C8, witnessed on the spec's example: searching the one-file directory
for content `"class"` yields `classInfo` — `content_matches = 8`, exactly
5 example lines. -/
theorem C8_witness :
    (("class" : String) ≠ "" ∧
     classInfo ∈ (search_files [classFile] "" "" "class").results) ∧
    ((∃ f ∈ [classFile], f.decodable = true ∧
        searchOneFile "" "" "class" f = some classInfo ∧
        classInfo.content_matches = some (countMatches "class" f.content) ∧
        ∃ mls, classInfo.match_lines = some mls ∧ mls.length ≤ 5) ∧
     (∀ f ∈ [classFile], f.decodable = false →
        searchOneFile "" "" "class" f = none)) :=
  ⟨⟨by decide, by decide⟩,
   C8_search_caps [classFile] "" "" "class" (by decide) classInfo (by decide)⟩

/-- C9 amended: the Tool Registry half of the claim holds — `execute_tool`
always hands back a tagged result, normalizing handler exceptions into the
error shape and unknown tools into an error result — while the File
Transaction Engine half must be weakened: its methods normalize every
failure into a single raised `FileOperationError` whose human-readable
message names the operation and target, an exception escaping to the
caller rather than a returned tagged failure (shown here for `read_file`
on a missing path). -/
theorem C9_amended {σ κ α : Type} (tools : List (Tool σ κ α)) (tool_name : String)
    (kwargs : List (String × κ)) (s : σ) :
    (∀ t : Tool σ κ α, tools.find? (fun t' => t'.name = tool_name) = some t →
      t.parameters.find?
          (fun pr => pr.2.required && (lookupArg kwargs pr.1).isNone) = none →
      ∀ (e : String) (s' : σ), t.handler kwargs s = (Except.error e, s') →
        execute_tool tools tool_name kwargs s =
          (ToolOutcome.errorResult ("Tool execution failed: " ++ e), s')) ∧
    (tools.find? (fun t' => t'.name = tool_name) = none →
      execute_tool tools tool_name kwargs s =
        (ToolOutcome.errorResult ("Tool \"" ++ tool_name ++ "\" not found"), s)) ∧
    (∀ (st : AgentState) (p : String), fsGet st.fs p = none →
      read_file st p =
        Except.error ("Error reading file " ++ p ++ ": File not found: " ++ p)) := by
  refine ⟨fun t ht hv e s' hh => ?_, fun hn => ?_, fun st p hp => ?_⟩
  · simp [execute_tool, ht, hv, hh]
  · simp [execute_tool, hn]
  · simp [read_file, hp]

/-- A registry entry whose handler always raises, for witnessing C9. -/
def failingTool : Tool Nat String Nat :=
  { name := "web_fetch",
    description := "Fetch content from URLs with smart text extraction",
    category := "Web Operations", parameters := [],
    handler := fun _ n => (Except.error "boom", n) }

/-- C9 amended, witnessed: a raising handler is normalized into the
tagged error result with the state the handler left behind, and
`read_file` on the empty filesystem raises the wrapped not-found
`FileOperationError`. -/
theorem C9_witness :
    (([failingTool].find? (fun t' => t'.name = "web_fetch") = some failingTool ∧
      failingTool.parameters.find?
        (fun pr => pr.2.required &&
          (lookupArg ([] : List (String × String)) pr.1).isNone) = none ∧
      failingTool.handler [] 0 = (Except.error "boom", 0)) ∧
     fsGet s0.fs "a.txt" = none) ∧
    (execute_tool [failingTool] "web_fetch" ([] : List (String × String)) 0 =
       (ToolOutcome.errorResult ("Tool execution failed: " ++ "boom"), 0) ∧
     read_file s0 "a.txt" =
       Except.error ("Error reading file " ++ "a.txt" ++ ": File not found: " ++ "a.txt")) :=
  ⟨⟨⟨rfl, rfl, rfl⟩, rfl⟩,
   (C9_amended [failingTool] "web_fetch" [] 0).1 failingTool rfl rfl "boom" 0 rfl,
   (C9_amended [failingTool] "web_fetch" [] 0).2.2 s0 "a.txt" rfl⟩

/-- C10: undo is not atomic with respect to the history.  The record is
popped before the filesystem reversal is attempted; whenever the record
calls for a reversal action and that filesystem step fails, the method
raises the wrapped failure while the pop survives: the resulting state
has the popped history (the record permanently consumed, not re-appended)
and the untouched filesystem. -/
theorem C10_failed_undo_consumes_record (s : AgentState) (last : OpRecord)
    (hlast : s.operation_history.getLast? = some last)
    (hstep : (undoStep { s with operation_history := s.operation_history.dropLast }
        last).isSome = true) :
    undo_last_operation false s =
      (Except.error "Error undoing operation: filesystem restore failed",
       { s with operation_history := s.operation_history.dropLast }) := by
  simp only [undo_last_operation, hlast]
  rcases h : undoStep { s with operation_history := s.operation_history.dropLast } last
    with _ | fs2
  · rw [h] at hstep
    simp at hstep
  · simp [h]

/-- A state whose history holds one modify record backed only by prior
content, while `a.txt` currently holds newer content. -/
def c10s : AgentState :=
  { fs := [("a.txt", "new")], backups := [],
    operation_history := [{ operation := "modify", file_path := "a.txt",
                            backup_path := "", original_content := "old",
                            timestamp := 0 }],
    clock := 1 }

/-- C10, witnessed: undoing the modify record of `c10s` with the restore
write failing raises the failure and leaves the history empty — the
record is gone although nothing was reversed. -/
theorem C10_witness :
    (c10s.operation_history.getLast? =
       some { operation := "modify", file_path := "a.txt", backup_path := "",
              original_content := "old", timestamp := 0 } ∧
     (undoStep { c10s with operation_history := c10s.operation_history.dropLast }
        { operation := "modify", file_path := "a.txt", backup_path := "",
          original_content := "old", timestamp := 0 }).isSome = true) ∧
    undo_last_operation false c10s =
      (Except.error "Error undoing operation: filesystem restore failed",
       { c10s with operation_history := c10s.operation_history.dropLast }) :=
  ⟨⟨by decide, by decide⟩,
   C10_failed_undo_consumes_record c10s
     { operation := "modify", file_path := "a.txt", backup_path := "",
       original_content := "old", timestamp := 0 }
     (by decide) (by decide)⟩
